import Mathlib

/-!
Verification of the flood-discovery core of the `common` crate:
the `RingBuffer` history cache (src/src/ring_buffer/mod.rs) and the
`Flooder::handle_flood_request` algorithm (src/src/networking/flooder.rs).

The `VecDeque<T>` backing store is modelled as a `List T` whose head is the
front (oldest element); `push_back` appends, `pop_front` takes the head.
-/

/-- Model of `RingBuffer<T>` (src/src/ring_buffer/mod.rs): a deque `buff`
(front = oldest) together with the requested capacity `size`. -/
structure RingBuffer (T : Type) where
  buff : List T
  size : Nat
  deriving DecidableEq

namespace RingBuffer

/-- Model of `RingBuffer::with_capacity`: both branches of the Rust code (preallocating
below 0x400, plain `VecDeque::new` otherwise) produce an empty deque; the
branch only chooses an allocation strategy, so the model is a single empty
buffer with the requested `size`. -/
def with_capacity {T : Type} (size : Nat) : RingBuffer T :=
  ⟨[], size⟩

/-- Model of `RingBuffer::is_empty`: delegates to the deque. -/
def is_empty {T : Type} (rb : RingBuffer T) : Bool :=
  rb.buff.isEmpty

/-- Model of `RingBuffer::is_full`: the buffer is full when its length equals `size`. -/
def is_full {T : Type} (rb : RingBuffer T) : Bool :=
  rb.buff.length == rb.size

/-- Model of `RingBuffer::insert`: if the buffer is full, `pop_front` the oldest
element into the returned option; then `push_back` the new element. The Rust
method mutates `self` and returns `Option<T>`; the model returns the pair
(returned option, updated buffer). -/
def insert {T : Type} (rb : RingBuffer T) (e : T) : Option T × RingBuffer T :=
  let popped : Option T × List T :=
    if rb.is_full then (rb.buff.head?, rb.buff.tail) else (none, rb.buff)
  (popped.1, ⟨popped.2 ++ [e], rb.size⟩)

/-- Model of `RingBuffer::pop`: removes the first (oldest) element and returns it;
`pop_front` of an empty deque returns `None` and leaves it empty. -/
def pop {T : Type} (rb : RingBuffer T) : Option T × RingBuffer T :=
  (rb.buff.head?, ⟨rb.buff.tail, rb.size⟩)

/-- Model of `RingBuffer::contains` (requires `PartialEq`): delegates to the deque's
linear-scan membership test. -/
def contains {T : Type} [DecidableEq T] (rb : RingBuffer T) (e : T) : Bool :=
  decide (e ∈ rb.buff)

/-- A sequence of `insert` calls performed in order, collecting the evicted
elements in order of eviction together with the final buffer. -/
def insertAll {T : Type} (rb : RingBuffer T) : List T → List T × RingBuffer T
  | [] => ([], rb)
  | x :: rest =>
    let q := rb.insert x
    let r := q.2.insertAll rest
    (q.1.toList ++ r.1, r.2)

/-- Repeated `pop` calls with a fuel bound, collecting the returned elements
until `pop` yields `none` (or the fuel runs out). -/
def popAllFuel {T : Type} : Nat → RingBuffer T → List T
  | 0, _ => []
  | fuel + 1, rb =>
    match rb.pop with
    | (some x, rb') => x :: popAllFuel fuel rb'
    | (none, _) => []

/-- Repeated `pop` calls until `pop` yields `none`; the buffer length bounds
the number of successful pops. -/
def popAll {T : Type} (rb : RingBuffer T) : List T :=
  popAllFuel rb.buff.length rb

end RingBuffer

example : ((RingBuffer.with_capacity 3 : RingBuffer Nat).insertAll [1, 2, 3, 4]).2.buff = [2, 3, 4] := by decide
example : ((RingBuffer.with_capacity 3 : RingBuffer Nat).insertAll [1, 2, 3, 4]).1 = [1] := by decide
example : ((RingBuffer.with_capacity 0 : RingBuffer Nat).insertAll [5, 6]).2.buff = [5, 6] := by decide
example : (RingBuffer.popAll ⟨[4, 5], 3⟩ : List Nat) = [4, 5] := by decide

/-!
The flood handler (src/src/networking/flooder.rs). The wire types it consumes
(`SourceRoutingHeader`, `FloodRequest`, `FloodResponse`, `Packet`, `NodeType`
of the external `wg_2024` crate) are owned outside this repository; they are
modelled here from the spec's description of their contracts (spec §3, §6:
a routing header is an ordered hop list plus a current-hop index supporting
"advance and read current hop"; a flood request carries `initiator_id`,
`flood_id` and a mutable path trace; a response is built from the completed
trace and is routed back along the trace in reverse).

`NodeId` is a `u8` in the external crate; this core only compares node ids
for equality, so it is modelled as `Nat`.
-/

abbrev NodeId := Nat

/-- Modelled from the spec: the external `wg_2024::packet::NodeType`
enumeration tagging a node's kind, used only as path-trace metadata (§6). -/
inductive NodeType where
  | Client
  | Drone
  | Server
  deriving DecidableEq

/-- Modelled from the spec: the external `wg_2024` routing header — "an
ordered sequence of hop identifiers plus a current-hop index; advancing the
index selects the next hop when a response is routed" (spec §3). -/
structure SourceRoutingHeader where
  hops : List NodeId
  hop_index : Nat
  deriving DecidableEq

namespace SourceRoutingHeader

/-- Modelled from the spec: reading the current hop — the hop at position
`hop_index`, absent when the index falls outside the hop list. -/
def current_hop (h : SourceRoutingHeader) : Option NodeId :=
  h.hops.get? h.hop_index

/-- Modelled from the spec: advancing the current-hop index by one. -/
def increase_hop_index (h : SourceRoutingHeader) : SourceRoutingHeader :=
  { h with hop_index := h.hop_index + 1 }

end SourceRoutingHeader

/-- Modelled from the spec: the external `wg_2024::packet::FloodRequest` — a
flood message carrying `flood_id`, `initiator_id` and the mutable ordered
path trace of `(NodeId, NodeType)` pairs (spec §3, §6). -/
structure FloodRequest where
  flood_id : Nat
  initiator_id : NodeId
  path_trace : List (NodeId × NodeType)
  deriving DecidableEq

/-- Modelled from the spec: the external `wg_2024::packet::FloodResponse` — a
response value carrying the flood id and the completed path trace used for
return routing (spec §3, §6). -/
structure FloodResponse where
  flood_id : Nat
  path_trace : List (NodeId × NodeType)
  deriving DecidableEq

/-- Modelled from the spec: the packet body — this core only constructs flood
requests and flood responses (other packet kinds never arise here). -/
inductive PacketType where
  | floodRequest (fr : FloodRequest)
  | floodResponse (fres : FloodResponse)
  deriving DecidableEq

/-- Modelled from the spec: the external `wg_2024::packet::Packet` — a packet
body plus routing header and session id. -/
structure Packet where
  pack_type : PacketType
  routing_header : SourceRoutingHeader
  session_id : Nat
  deriving DecidableEq

/-- Modelled from the spec: `Packet::new_flood_request` wraps a flood request
with the given routing header and session id (spec §4.2 step 5: "construct an
outbound copy of the broadcast — same routing header, same session id, the
extended flood message"). -/
def Packet.new_flood_request (rh : SourceRoutingHeader) (sid : Nat)
    (fr : FloodRequest) : Packet :=
  ⟨.floodRequest fr, rh, sid⟩

/-- Advancing the current-hop index of a packet's routing header in place
(`new_packet.routing_header.increase_hop_index()` in the handler). -/
def Packet.increase_hop_index (p : Packet) : Packet :=
  { p with routing_header := p.routing_header.increase_hop_index }

namespace FloodRequest

/-- Modelled from the spec: `FloodRequest::increment` appends
`(node_id, node_type)` to the path trace (spec §4.2 step 3). -/
def increment (fr : FloodRequest) (node_id : NodeId) (node_type : NodeType) :
    FloodRequest :=
  { fr with path_trace := fr.path_trace ++ [(node_id, node_type)] }

/-- Modelled from the spec: `FloodRequest::generate_response` builds a flood
response carrying the completed path trace, with a routing header whose hop
list is the trace's node ids in reverse and whose current-hop index starts at
the terminating node (position 0); the trace "is later consumed in reverse to
drive the response back" (spec §3) and the next hop is "the neighbor
identified by advancing the routing header's current-hop index by one
position" (spec glossary). -/
def generate_response (fr : FloodRequest) (session_id : Nat) : Packet :=
  { pack_type := .floodResponse ⟨fr.flood_id, fr.path_trace⟩,
    routing_header := ⟨(fr.path_trace.map Prod.fst).reverse, 0⟩,
    session_id := session_id }

end FloodRequest

/-- A node implementing the `Flooder` trait: `get_id` is the `id` field,
`Self::NODE_TYPE` the `node_type` field, `get_neighbours` yields the
`neighbours` list (a channel is identified by the neighbor id it leads to,
since the map is keyed by neighbor id), and `has_seen_flood` is the node's
membership test over its flood history. -/
structure Node where
  id : NodeId
  node_type : NodeType
  neighbours : List NodeId
  has_seen_flood : NodeId × Nat → Bool

/-- Observable side effects of one `handle_flood_request` call, in program
order: a `send` on a neighbor's channel, a `send_to_controller` report, or an
`insert_flood` into the history cache. -/
inductive Event where
  | sent (channel : NodeId) (p : Packet)
  | reported (p : Packet)
  | recorded (flood_tuple_id : NodeId × Nat)
  deriving DecidableEq

/-- How one `handle_flood_request` call ends: `Ok(())`, `Err(FloodingError)`,
or the `expect` panic on a missing current hop. -/
inductive HandlerResult where
  | ok
  | errFlooding
  | panicked
  deriving DecidableEq

/-- Everything one `handle_flood_request` call produces: its side effects in
order, the flood request as left mutated, and how the call ended. -/
structure HandleOutput where
  events : List Event
  flood_r : FloodRequest
  result : HandlerResult
  deriving DecidableEq

/-- The `sender_id` as computed by the handler:
`flood_r.path_trace.last().map_or(flood_r.initiator_id, |(id, t)| *id)`. -/
def sender_of (flood_r : FloodRequest) : NodeId :=
  match flood_r.path_trace.getLast? with
  | some (id, _) => id
  | none => flood_r.initiator_id

/-- Model of `Flooder::handle_flood_request` (src/src/networking/flooder.rs):
compute the sender and the flood tuple id, `increment` the trace with this
node's entry, then either build and forward a response (when the flood was
seen before or the node has at most one neighbor) or re-broadcast to every
neighbor other than the sender and record the flood id. The `expect` on
`current_hop()` is modelled as the `panicked` outcome. -/
def handle_flood_request (self : Node) (routing_header : SourceRoutingHeader)
    (sid : Nat) (flood_r : FloodRequest) : HandleOutput :=
  let sender_id : NodeId := sender_of flood_r
  let flood_tuple_id : NodeId × Nat := (flood_r.initiator_id, flood_r.flood_id)
  let flood_r : FloodRequest := flood_r.increment self.id self.node_type
  if self.has_seen_flood flood_tuple_id || decide (self.neighbours.length ≤ 1) then
    let new_packet : Packet := (flood_r.generate_response sid).increase_hop_index
    match new_packet.routing_header.current_hop with
    | some next_hop =>
      match self.neighbours.find? (fun id => id == next_hop) with
      | some ch => ⟨[.sent ch new_packet, .reported new_packet], flood_r, .ok⟩
      | none => ⟨[], flood_r, .errFlooding⟩
    | none => ⟨[], flood_r, .panicked⟩
  else
    let events : List Event := self.neighbours.flatMap (fun id =>
      if id ≠ sender_id then
        let new_packet : Packet := Packet.new_flood_request routing_header sid flood_r
        [Event.sent id new_packet, Event.reported new_packet]
      else [])
    ⟨events ++ [.recorded flood_tuple_id], flood_r, .ok⟩

namespace HandleOutput

/-- The channel sends of a call, in order. -/
def sends (o : HandleOutput) : List (NodeId × Packet) :=
  o.events.filterMap fun e =>
    match e with
    | .sent c p => some (c, p)
    | _ => none

/-- The monitoring-sink reports of a call, in order. -/
def reports (o : HandleOutput) : List Packet :=
  o.events.filterMap fun e =>
    match e with
    | .reported p => some p
    | _ => none

/-- The flood ids recorded into the history cache by a call, in order. -/
def recordedIds (o : HandleOutput) : List (NodeId × Nat) :=
  o.events.filterMap fun e =>
    match e with
    | .recorded f => some f
    | _ => none

end HandleOutput

/-- Whether a packet carries a flood response. -/
def Packet.is_flood_response (p : Packet) : Bool :=
  match p.pack_type with
  | .floodResponse _ => true
  | _ => false

/-- Whether a packet carries a flood request. -/
def Packet.is_flood_request (p : Packet) : Bool :=
  match p.pack_type with
  | .floodRequest _ => true
  | _ => false

/-!
Worked examples mirroring the spec's scenario (spec §8): linear topology
`1—2—3—4`, flood `(initiator 1, flood id 7)` arriving at node 2 with trace
`[(1, Client)]`, plus the failure and panic paths on concrete inputs.
-/

example :
    (handle_flood_request ⟨2, .Drone, [1, 3], fun _ => false⟩ ⟨[], 0⟩ 9
      ⟨7, 1, [(1, .Client)]⟩).recordedIds = [(1, 7)] := by decide

example :
    ((handle_flood_request ⟨2, .Drone, [1, 3], fun _ => false⟩ ⟨[], 0⟩ 9
      ⟨7, 1, [(1, .Client)]⟩).sends.map Prod.fst) = [3] := by decide

example :
    (handle_flood_request ⟨5, .Drone, [9], fun _ => false⟩ ⟨[], 0⟩ 0
      ⟨7, 1, []⟩).result = .panicked := by decide

example :
    (handle_flood_request ⟨5, .Drone, [9], fun _ => true⟩ ⟨[], 0⟩ 0
      ⟨7, 1, [(3, .Drone)]⟩).result = .errFlooding := by decide

example :
    (handle_flood_request ⟨5, .Drone, [3], fun _ => true⟩ ⟨[], 0⟩ 0
      ⟨7, 1, [(3, .Drone)]⟩).result = .ok := by decide


namespace RingBuffer

/-- Bridge between the Boolean membership scan and list membership. -/
lemma contains_iff_mem {T : Type} [DecidableEq T] (rb : RingBuffer T) (e : T) :
    rb.contains e = true ↔ e ∈ rb.buff := by
  simp [contains]

/-- Closed form of a sequence of inserts into a buffer of capacity `C ≥ 1`
holding at most `C` elements: the evicted elements are the oldest overflow
prefix and the final contents are the most recent `C`-suffix. -/
lemma insertAll_spec {T : Type} (C : Nat) (hC : 1 ≤ C) :
    ∀ (xs : List T) (rb : RingBuffer T), rb.size = C → rb.buff.length ≤ C →
      rb.insertAll xs
        = ((rb.buff ++ xs).take (rb.buff.length + xs.length - C),
           ⟨(rb.buff ++ xs).drop (rb.buff.length + xs.length - C), C⟩) := by
  intro xs
  induction xs with
  | nil =>
    intro rb hsize hlen
    have h0 : rb.buff.length + ([] : List T).length - C = 0 := by
      simp
      omega
    rw [h0]
    simp [insertAll, ← hsize]
  | cons x rest ih =>
    intro rb hsize hlen
    simp only [insertAll]
    by_cases hf : rb.buff.length = C
    · obtain ⟨h, t, hbt⟩ : ∃ h t, rb.buff = h :: t := by
        cases hb : rb.buff with
        | nil =>
          exfalso
          rw [hb] at hf
          simp at hf
          omega
        | cons h t => exact ⟨h, t, rfl⟩
      have htl : t.length + 1 = C := by
        rw [hbt] at hf
        simpa using hf
      have hins : rb.insert x = (some h, ⟨t ++ [x], C⟩) := by
        simp [insert, is_full, hf, hsize, hbt, htl]
      have hr := ih ⟨t ++ [x], C⟩ rfl (by simp; omega)
      rw [hins]
      simp only [hr, hbt]
      have e1 : (⟨t ++ [x], C⟩ : RingBuffer T).buff.length + rest.length - C
          = rest.length := by
        simp
        omega
      have e2 : (h :: t).length + (x :: rest).length - C = rest.length + 1 := by
        simp
        omega
      rw [e1, e2]
      simp [List.append_assoc]
    · have hnf : rb.is_full = false := by
        simp [is_full, hsize]
        omega
      have hins : rb.insert x = (none, ⟨rb.buff ++ [x], C⟩) := by
        simp [insert, hnf, hsize]
      have hr := ih ⟨rb.buff ++ [x], C⟩ rfl (by simp; omega)
      rw [hins]
      simp only [hr]
      have e1 : (⟨rb.buff ++ [x], C⟩ : RingBuffer T).buff.length + rest.length - C
          = rb.buff.length + (x :: rest).length - C := by
        simp
        omega
      rw [e1]
      simp [List.append_assoc]

end RingBuffer

/-- C1 counterexample: with capacity `C = 0` the claimed bound "the cache
holds at most `C` entries at all times" fails — a capacity-0 buffer is
"full" while empty, evicts nothing, and grows past its capacity on the very
first insert. -/
theorem ring_buffer_capacity_zero_counterexample :
    ¬ (((RingBuffer.with_capacity 0 : RingBuffer Nat).insertAll [5]).2.buff.length ≤ 0) := by
  decide

/-- C1 (amended to capacities `C ≥ 1`): after any sequence of inserts into an
initially empty cache of capacity `C ≥ 1`, at most `C` entries are held, the
contents are exactly the most recently inserted `C`-suffix of the insertion
sequence (so inserting `C + k` distinct ids leaves exactly the most recent
`C` present), and the evicted elements are exactly the oldest overflow
prefix, in insertion (oldest-first) order. -/
theorem ring_buffer_capacity_invariant {T : Type} (C : Nat) (hC : 1 ≤ C)
    (xs : List T) :
    ((RingBuffer.with_capacity C : RingBuffer T).insertAll xs).2.buff.length ≤ C
    ∧ ((RingBuffer.with_capacity C : RingBuffer T).insertAll xs).2.buff
        = xs.drop (xs.length - C)
    ∧ ((RingBuffer.with_capacity C : RingBuffer T).insertAll xs).1
        = xs.take (xs.length - C) := by
  have h := RingBuffer.insertAll_spec C hC xs (RingBuffer.with_capacity C) rfl
    (by simp [RingBuffer.with_capacity])
  simp only [RingBuffer.with_capacity, List.nil_append, List.length_nil,
    Nat.zero_add] at h
  simp only [RingBuffer.with_capacity]
  rw [h]
  refine ⟨?_, rfl, rfl⟩
  simp
  omega

/-- C1 witness: capacity 2, inserting the 3 distinct ids 1, 2, 3 keeps the 2
most recent and evicts the oldest. -/
theorem ring_buffer_capacity_invariant_witness :
    ((RingBuffer.with_capacity 2 : RingBuffer Nat).insertAll [1, 2, 3]).2.buff.length ≤ 2
    ∧ ((RingBuffer.with_capacity 2 : RingBuffer Nat).insertAll [1, 2, 3]).2.buff
        = [1, 2, 3].drop ([1, 2, 3].length - 2)
    ∧ ((RingBuffer.with_capacity 2 : RingBuffer Nat).insertAll [1, 2, 3]).1
        = [1, 2, 3].take ([1, 2, 3].length - 2) :=
  ring_buffer_capacity_invariant 2 (by decide) [1, 2, 3]

/-- C6 counterexample: "insert removes and returns the oldest stored entry
exactly when the cache is at capacity before the call" fails at capacity 0 —
the empty capacity-0 buffer is at capacity (`is_full` holds) yet `insert`
returns no evicted entry. -/
theorem ring_buffer_insert_zero_capacity_counterexample :
    (RingBuffer.with_capacity 0 : RingBuffer Nat).is_full = true
    ∧ ((RingBuffer.with_capacity 0 : RingBuffer Nat).insert 7).1 = none := by
  decide

/-- C6 (amended): `insert e` removes and returns the oldest stored entry
exactly when the cache is at capacity **and nonempty** before the call (a
capacity-0 cache counts as at capacity while empty and evicts nothing);
otherwise it returns no evicted entry and removes nothing; in every case `e`
is appended as the newest entry. -/
theorem ring_buffer_insert_spec {T : Type} (rb : RingBuffer T) (e : T) :
    (rb.is_full = true → ∀ x rest, rb.buff = x :: rest →
        rb.insert e = (some x, ⟨rest ++ [e], rb.size⟩))
    ∧ (rb.is_full = false → rb.insert e = (none, ⟨rb.buff ++ [e], rb.size⟩))
    ∧ (rb.is_full = true → rb.buff = [] →
        rb.insert e = (none, ⟨[e], rb.size⟩)) := by
  refine ⟨?_, ?_, ?_⟩
  · intro hfull x rest hb
    simp [RingBuffer.insert, hfull, hb]
  · intro hnf
    simp [RingBuffer.insert, hnf]
  · intro hfull hb
    simp [RingBuffer.insert, hfull, hb]

/-- C7: membership after insertion. `contains e` is true iff `e` is currently
stored; immediately after `insert x` the element `x` is contained; and after
`C ≥ 1` further insertions of identifiers other than `x` (fewer than `C`
keeps `x` present, `C` or more evicts it) `contains x` flips to false:
`contains x` holds exactly while fewer than `C` subsequent insertions have
happened. -/
theorem ring_buffer_round_trip {T : Type} [DecidableEq T] (C : Nat)
    (hC : 1 ≤ C) (rb : RingBuffer T) (hsize : rb.size = C)
    (hlen : rb.buff.length ≤ C) (x : T) (ys : List T) (hx : x ∉ ys) :
    (∀ e, rb.contains e = true ↔ e ∈ rb.buff)
    ∧ ((rb.insert x).2.contains x = true)
    ∧ (((rb.insert x).2.insertAll ys).2.contains x = true ↔ ys.length < C) := by
  obtain ⟨pre, hb1, hpre⟩ :
      ∃ pre, (rb.insert x).2 = ⟨pre ++ [x], C⟩ ∧ pre.length + 1 ≤ C := by
    by_cases hf : rb.is_full = true
    · refine ⟨rb.buff.tail, by simp [RingBuffer.insert, hf, hsize], ?_⟩
      have : rb.buff.length = C := by
        simpa [RingBuffer.is_full, hsize] using hf
      cases hb : rb.buff with
      | nil => simp; omega
      | cons a t =>
        rw [hb] at this
        simp at this ⊢
        omega
    · refine ⟨rb.buff, by simp [RingBuffer.insert, hf, hsize], ?_⟩
      have : ¬ rb.buff.length = C := by
        simpa [RingBuffer.is_full, hsize] using hf
      omega
  refine ⟨fun e => RingBuffer.contains_iff_mem rb e, ?_, ?_⟩
  · rw [hb1, RingBuffer.contains_iff_mem]
    simp
  · rw [hb1, RingBuffer.insertAll_spec C hC ys ⟨pre ++ [x], C⟩ rfl (by simp; omega)]
    rw [RingBuffer.contains_iff_mem]
    simp only [List.length_append, List.length_cons, List.length_nil]
    constructor
    · intro hmem
      by_contra hk
      have hk' : C ≤ ys.length := by omega
      rw [List.drop_append_eq_append_drop] at hmem
      rw [List.drop_eq_nil_of_le (by simp; omega)] at hmem
      simp only [List.nil_append] at hmem
      exact hx (List.mem_of_mem_drop hmem)
    · intro hk
      have hd : pre.length + 1 + ys.length - C ≤ pre.length := by omega
      rw [List.append_assoc, List.singleton_append,
        List.drop_append_eq_append_drop,
        Nat.sub_eq_zero_of_le hd, List.drop_zero]
      simp

/-- C7 witness: capacity 1 — after `insert 5` the id 5 is contained; one
further distinct insertion evicts it (`1 < 1` is false). -/
theorem ring_buffer_round_trip_witness :
    (((RingBuffer.with_capacity 1 : RingBuffer Nat).insert 5).2.contains 5 = true)
    ∧ ((((RingBuffer.with_capacity 1 : RingBuffer Nat).insert 5).2.insertAll
          [6]).2.contains 5 = true ↔ [6].length < 1) :=
  ⟨(ring_buffer_round_trip 1 (by decide) (RingBuffer.with_capacity 1) rfl
      (by decide) 5 [6] (by decide)).2.1,
   (ring_buffer_round_trip 1 (by decide) (RingBuffer.with_capacity 1) rfl
      (by decide) 5 [6] (by decide)).2.2⟩

namespace RingBuffer

/-- Running `popAllFuel` with fuel equal to the buffer length drains the
buffer front to back. -/
lemma popAllFuel_length {T : Type} :
    ∀ (b : List T) (s : Nat), popAllFuel b.length ⟨b, s⟩ = b := by
  intro b
  induction b with
  | nil => intro s; rfl
  | cons x t ih =>
    intro s
    simp [popAllFuel, pop, ih]

end RingBuffer

/-- C10: `pop` removes and returns the oldest stored entry wrapped in an
`Option`, returning `none` exactly when the buffer is empty, and repeated
pops yield the stored entries in insertion order. -/
theorem ring_buffer_pop_spec {T : Type} (rb : RingBuffer T) :
    (rb.pop.1 = none ↔ rb.is_empty = true)
    ∧ (∀ x rest, rb.buff = x :: rest → rb.pop = (some x, ⟨rest, rb.size⟩))
    ∧ rb.popAll = rb.buff := by
  refine ⟨?_, ?_, ?_⟩
  · simp [RingBuffer.pop, RingBuffer.is_empty, List.head?_eq_none_iff,
      List.isEmpty_iff]
  · intro x rest hb
    simp [RingBuffer.pop, hb]
  · cases rb with
    | mk b s => exact RingBuffer.popAllFuel_length b s

/-- C10 witness: popping `⟨[4, 5], 3⟩` returns the oldest element 4 and
leaves `[5]`; draining it yields the entries in insertion order. -/
theorem ring_buffer_pop_spec_witness :
    ((⟨[4, 5], 3⟩ : RingBuffer Nat).pop = (some 4, ⟨[5], 3⟩))
    ∧ (⟨[4, 5], 3⟩ : RingBuffer Nat).popAll = [4, 5] :=
  ⟨(ring_buffer_pop_spec (⟨[4, 5], 3⟩ : RingBuffer Nat)).2.1 4 [5] rfl,
   (ring_buffer_pop_spec (⟨[4, 5], 3⟩ : RingBuffer Nat)).2.2⟩

/-- C6 witness: a full buffer of capacity 2 evicts its oldest element and
appends the new one; a non-full buffer appends with no eviction. -/
theorem ring_buffer_insert_spec_witness :
    ((⟨[4, 5], 2⟩ : RingBuffer Nat).insert 6 = (some 4, ⟨[5, 6], 2⟩))
    ∧ ((⟨[4], 2⟩ : RingBuffer Nat).insert 6 = (none, ⟨[4, 6], 2⟩)) :=
  ⟨(ring_buffer_insert_spec (⟨[4, 5], 2⟩ : RingBuffer Nat) 6).1 (by decide) 4 [5] rfl,
   (ring_buffer_insert_spec (⟨[4], 2⟩ : RingBuffer Nat) 6).2.1 (by decide)⟩

/-!
Branch-level characterizations of `handle_flood_request`, one per control
path of the source function. Each is a plain unfolding of the definition
under the hypotheses that select that path.
-/

/-- Terminate branch, next hop resolved and found among the neighbours:
the response is sent on the found channel and reported, with success. -/
lemma handle_terminate_found (self : Node) (rh : SourceRoutingHeader)
    (sid : Nat) (fr : FloodRequest) (nh ch : NodeId)
    (hcond : (self.has_seen_flood (fr.initiator_id, fr.flood_id)
        || decide (self.neighbours.length ≤ 1)) = true)
    (hch : ((fr.increment self.id self.node_type).generate_response
        sid).increase_hop_index.routing_header.current_hop = some nh)
    (hfind : self.neighbours.find? (fun id => id == nh) = some ch) :
    handle_flood_request self rh sid fr =
      ⟨[.sent ch ((fr.increment self.id self.node_type).generate_response
          sid).increase_hop_index,
        .reported ((fr.increment self.id self.node_type).generate_response
          sid).increase_hop_index],
       fr.increment self.id self.node_type, .ok⟩ := by
  simp only [handle_flood_request, hcond, hch, hfind, if_true]

/-- Terminate branch, next hop resolved but absent from the neighbour table:
nothing is sent or reported and the call fails with `FloodingError`. -/
lemma handle_terminate_no_route (self : Node) (rh : SourceRoutingHeader)
    (sid : Nat) (fr : FloodRequest) (nh : NodeId)
    (hcond : (self.has_seen_flood (fr.initiator_id, fr.flood_id)
        || decide (self.neighbours.length ≤ 1)) = true)
    (hch : ((fr.increment self.id self.node_type).generate_response
        sid).increase_hop_index.routing_header.current_hop = some nh)
    (hfind : self.neighbours.find? (fun id => id == nh) = none) :
    handle_flood_request self rh sid fr =
      ⟨[], fr.increment self.id self.node_type, .errFlooding⟩ := by
  simp only [handle_flood_request, hcond, hch, hfind, if_true]

/-- Terminate branch, no resolvable current hop after advancing: the
`expect` panics. -/
lemma handle_terminate_panic (self : Node) (rh : SourceRoutingHeader)
    (sid : Nat) (fr : FloodRequest)
    (hcond : (self.has_seen_flood (fr.initiator_id, fr.flood_id)
        || decide (self.neighbours.length ≤ 1)) = true)
    (hch : ((fr.increment self.id self.node_type).generate_response
        sid).increase_hop_index.routing_header.current_hop = none) :
    handle_flood_request self rh sid fr =
      ⟨[], fr.increment self.id self.node_type, .panicked⟩ := by
  simp only [handle_flood_request, hcond, hch, if_true]

/-- Propagate branch: broadcast to every neighbour other than the sender,
reporting each send, then record the flood id, with success. -/
lemma handle_propagate (self : Node) (rh : SourceRoutingHeader)
    (sid : Nat) (fr : FloodRequest)
    (hcond : (self.has_seen_flood (fr.initiator_id, fr.flood_id)
        || decide (self.neighbours.length ≤ 1)) = false) :
    handle_flood_request self rh sid fr =
      ⟨(self.neighbours.flatMap fun id =>
          if id ≠ sender_of fr then
            [Event.sent id (Packet.new_flood_request rh sid
                (fr.increment self.id self.node_type)),
             Event.reported (Packet.new_flood_request rh sid
                (fr.increment self.id self.node_type))]
          else []) ++ [.recorded (fr.initiator_id, fr.flood_id)],
       fr.increment self.id self.node_type, .ok⟩ := by
  simp only [handle_flood_request, hcond, Bool.false_eq_true, if_false]

/-- The handler leaves the flood request's trace extended by this node's
entry on every control path. -/
lemma handle_flood_request_flood_r (self : Node) (rh : SourceRoutingHeader)
    (sid : Nat) (fr : FloodRequest) :
    (handle_flood_request self rh sid fr).flood_r
      = fr.increment self.id self.node_type := by
  by_cases hcond : (self.has_seen_flood (fr.initiator_id, fr.flood_id)
      || decide (self.neighbours.length ≤ 1)) = true
  · cases hch : ((fr.increment self.id self.node_type).generate_response
        sid).increase_hop_index.routing_header.current_hop with
    | none => rw [handle_terminate_panic self rh sid fr hcond hch]
    | some nh =>
      cases hfind : self.neighbours.find? (fun id => id == nh) with
      | none => rw [handle_terminate_no_route self rh sid fr nh hcond hch hfind]
      | some ch => rw [handle_terminate_found self rh sid fr nh ch hcond hch hfind]
  · rw [handle_propagate self rh sid fr (by simpa using hcond)]

/-- Splitting the broadcast loop into the eligible neighbours followed by the
per-neighbour send/report pair. -/
lemma flatMap_broadcast_filter (l : List NodeId) (s : NodeId) (pkt : Packet) :
    (l.flatMap fun id =>
        if id ≠ s then [Event.sent id pkt, Event.reported pkt] else [])
      = (l.filter fun id => id != s).flatMap fun id =>
          [Event.sent id pkt, Event.reported pkt] := by
  induction l with
  | nil => rfl
  | cons a t ih =>
    simp only [ne_eq, ite_not] at ih ⊢
    by_cases h : a = s
    · subst h
      simp [ih]
    · simp [h, ih]

/-- The channel sends of a broadcast event list, in loop order. -/
lemma filterMap_sent_broadcast (l : List NodeId) (pkt : Packet) :
    ((l.flatMap fun id => [Event.sent id pkt, Event.reported pkt]).filterMap
        fun e => match e with | Event.sent c p => some (c, p) | _ => none)
      = l.map fun id => (id, pkt) := by
  induction l with
  | nil => rfl
  | cons a t ih => simp [ih, List.filterMap_cons]

/-- The monitoring reports of a broadcast event list, one per send. -/
lemma filterMap_reported_broadcast (l : List NodeId) (pkt : Packet) :
    ((l.flatMap fun id => [Event.sent id pkt, Event.reported pkt]).filterMap
        fun e => match e with | Event.reported p => some p | _ => none)
      = l.map fun _ => pkt := by
  induction l with
  | nil => rfl
  | cons a t ih => simp [ih, List.filterMap_cons]

/-- A broadcast event list records nothing into the history cache. -/
lemma filterMap_recorded_broadcast (l : List NodeId) (pkt : Packet) :
    ((l.flatMap fun id => [Event.sent id pkt, Event.reported pkt]).filterMap
        fun e => match e with | Event.recorded f => some f | _ => none)
      = [] := by
  induction l with
  | nil => rfl
  | cons a t ih => simp [ih, List.filterMap_cons]

/-- Dropping from a duplicate-free list the one occurrence of a member
shortens it by exactly one. -/
lemma length_filter_ne (l : List NodeId) (s : NodeId) (hnd : l.Nodup)
    (hs : s ∈ l) :
    (l.filter fun id => id != s).length = l.length - 1 := by
  induction l with
  | nil => cases hs
  | cons a t ih =>
    rcases List.mem_cons.mp hs with h | h
    · subst h
      have hnotin : s ∉ t := (List.nodup_cons.mp hnd).1
      have hft : t.filter (fun id => id != s) = t :=
        List.filter_eq_self.mpr fun x hx => by
          simp only [bne_iff_ne, ne_eq]
          rintro rfl
          exact hnotin hx
      simp [List.filter_cons, hft]
    · have hnd' := (List.nodup_cons.mp hnd).2
      have ha : a ≠ s := by
        rintro rfl
        exact (List.nodup_cons.mp hnd).1 h
      have hlen := ih hnd' h
      have ht : 1 ≤ t.length := List.length_pos.mpr (List.ne_nil_of_mem h)
      rw [List.filter_cons, if_pos (bne_iff_ne.mpr ha)]
      simp only [List.length_cons]
      omega

/-- C4: every call to the handler appends exactly the pair
`(identity(), role())` to the path trace — growth by exactly one,
independent of branch — and any flood response the call sends carries that
extended trace, so the terminating node's own entry is included in the trace
used to build the response. -/
theorem flooder_trace_growth (self : Node) (rh : SourceRoutingHeader)
    (sid : Nat) (fr : FloodRequest) :
    (handle_flood_request self rh sid fr).flood_r.path_trace
      = fr.path_trace ++ [(self.id, self.node_type)]
    ∧ (handle_flood_request self rh sid fr).flood_r.path_trace.length
      = fr.path_trace.length + 1
    ∧ (∀ cp ∈ (handle_flood_request self rh sid fr).sends,
        ∀ fres : FloodResponse,
        cp.2.pack_type = PacketType.floodResponse fres →
        fres.path_trace = fr.path_trace ++ [(self.id, self.node_type)]) := by
  refine ⟨?_, ?_, ?_⟩
  · rw [handle_flood_request_flood_r]
    rfl
  · rw [handle_flood_request_flood_r]
    simp [FloodRequest.increment]
  · intro cp hcp fres hfres
    by_cases hcond : (self.has_seen_flood (fr.initiator_id, fr.flood_id)
        || decide (self.neighbours.length ≤ 1)) = true
    · cases hch : ((fr.increment self.id self.node_type).generate_response
          sid).increase_hop_index.routing_header.current_hop with
      | none =>
        rw [handle_terminate_panic self rh sid fr hcond hch] at hcp
        simp [HandleOutput.sends] at hcp
      | some nh =>
        cases hfind : self.neighbours.find? (fun id => id == nh) with
        | none =>
          rw [handle_terminate_no_route self rh sid fr nh hcond hch hfind] at hcp
          simp [HandleOutput.sends] at hcp
        | some ch =>
          rw [handle_terminate_found self rh sid fr nh ch hcond hch hfind] at hcp
          simp only [HandleOutput.sends, List.filterMap_cons, List.filterMap_nil] at hcp
          simp at hcp
          rw [hcp] at hfres
          simp only [Packet.increase_hop_index, FloodRequest.generate_response,
            FloodRequest.increment, PacketType.floodResponse.injEq] at hfres
          rw [← hfres]
    · rw [handle_propagate self rh sid fr (by simpa using hcond)] at hcp
      simp only [HandleOutput.sends, List.filterMap_append,
        flatMap_broadcast_filter, filterMap_sent_broadcast] at hcp
      simp at hcp
      obtain ⟨c, hc, hcp⟩ := hcp
      subst hcp
      simp [Packet.new_flood_request] at hfres

/-- C2: the handler takes the terminate branch — recording nothing into the
history cache and sending only flood responses (so no re-broadcast) — if and
only if the flood identifier was already seen or the node has at most one
neighbour; otherwise it takes the propagate branch (which records the id).
In particular a node with one neighbour terminates on first arrival whatever
the cache holds, and an already-recorded identifier always terminates. -/
theorem flooder_branch_decision (self : Node) (rh : SourceRoutingHeader)
    (sid : Nat) (fr : FloodRequest) :
    (self.has_seen_flood (fr.initiator_id, fr.flood_id) = true
      ∨ self.neighbours.length ≤ 1)
    ↔ ((handle_flood_request self rh sid fr).recordedIds = []
        ∧ ∀ cp ∈ (handle_flood_request self rh sid fr).sends,
            cp.2.is_flood_response = true) := by
  by_cases hcond : (self.has_seen_flood (fr.initiator_id, fr.flood_id)
      || decide (self.neighbours.length ≤ 1)) = true
  · refine iff_of_true (by simpa using hcond) ?_
    cases hch : ((fr.increment self.id self.node_type).generate_response
        sid).increase_hop_index.routing_header.current_hop with
    | none =>
      rw [handle_terminate_panic self rh sid fr hcond hch]
      simp [HandleOutput.recordedIds, HandleOutput.sends]
    | some nh =>
      cases hfind : self.neighbours.find? (fun id => id == nh) with
      | none =>
        rw [handle_terminate_no_route self rh sid fr nh hcond hch hfind]
        simp [HandleOutput.recordedIds, HandleOutput.sends]
      | some ch =>
        rw [handle_terminate_found self rh sid fr nh ch hcond hch hfind]
        refine ⟨by simp [HandleOutput.recordedIds], ?_⟩
        intro cp hcp
        simp only [HandleOutput.sends, List.filterMap_cons,
          List.filterMap_nil] at hcp
        simp at hcp
        rw [hcp]
        rfl
  · refine iff_of_false (by simpa using hcond) ?_
    rintro ⟨hrec, -⟩
    rw [handle_propagate self rh sid fr (by simpa using hcond)] at hrec
    simp only [HandleOutput.recordedIds, List.filterMap_append,
      flatMap_broadcast_filter, filterMap_recorded_broadcast] at hrec
    simp at hrec

/-- C2 witness: a leaf node (one neighbour) with a cold cache terminates: it
records nothing and sends only a flood response. -/
theorem flooder_branch_decision_witness :
    (handle_flood_request ⟨5, .Drone, [3], fun _ => false⟩ ⟨[], 0⟩ 0
        ⟨7, 1, [(3, .Drone)]⟩).recordedIds = []
    ∧ ∀ cp ∈ (handle_flood_request ⟨5, .Drone, [3], fun _ => false⟩ ⟨[], 0⟩ 0
        ⟨7, 1, [(3, .Drone)]⟩).sends, cp.2.is_flood_response = true :=
  (flooder_branch_decision ⟨5, .Drone, [3], fun _ => false⟩ ⟨[], 0⟩ 0
    ⟨7, 1, [(3, .Drone)]⟩).mp (Or.inr (by decide))

/-- C3: on the propagate branch (never-seen flood, more than one neighbour,
the sender being one of the duplicate-free neighbours) the handler emits, in
loop order, one send immediately followed by its monitoring report for every
neighbour other than the sender — exactly `N - 1` broadcast copies — then
records the flood identifier exactly once, and returns success. -/
theorem flooder_propagation_fanout (self : Node) (rh : SourceRoutingHeader)
    (sid : Nat) (fr : FloodRequest)
    (hseen : self.has_seen_flood (fr.initiator_id, fr.flood_id) = false)
    (hn : 1 < self.neighbours.length)
    (hnd : self.neighbours.Nodup)
    (hs : sender_of fr ∈ self.neighbours) :
    (handle_flood_request self rh sid fr).events
      = ((self.neighbours.filter fun id => id != sender_of fr).flatMap fun id =>
          [Event.sent id (Packet.new_flood_request rh sid
              (fr.increment self.id self.node_type)),
           Event.reported (Packet.new_flood_request rh sid
              (fr.increment self.id self.node_type))])
        ++ [Event.recorded (fr.initiator_id, fr.flood_id)]
    ∧ ((handle_flood_request self rh sid fr).sends.map Prod.fst)
        = (self.neighbours.filter fun id => id != sender_of fr)
    ∧ (handle_flood_request self rh sid fr).sends.length
        = self.neighbours.length - 1
    ∧ (handle_flood_request self rh sid fr).reports
        = (handle_flood_request self rh sid fr).sends.map Prod.snd
    ∧ (handle_flood_request self rh sid fr).recordedIds
        = [(fr.initiator_id, fr.flood_id)]
    ∧ (handle_flood_request self rh sid fr).result = .ok := by
  have hcond : (self.has_seen_flood (fr.initiator_id, fr.flood_id)
      || decide (self.neighbours.length ≤ 1)) = false := by
    simp [hseen]
    omega
  rw [handle_propagate self rh sid fr hcond]
  refine ⟨?_, ?_, ?_, ?_, ?_, rfl⟩
  · simp only [flatMap_broadcast_filter]
  · simp only [HandleOutput.sends, List.filterMap_append,
      flatMap_broadcast_filter, filterMap_sent_broadcast, List.filterMap_cons,
      List.filterMap_nil, List.append_nil, List.map_map]
    have hfn : (Prod.fst ∘ fun id : NodeId =>
        (id, Packet.new_flood_request rh sid
          (fr.increment self.id self.node_type))) = id := rfl
    rw [hfn, List.map_id]
  · simp only [HandleOutput.sends, List.filterMap_append,
      flatMap_broadcast_filter, filterMap_sent_broadcast, List.filterMap_cons,
      List.filterMap_nil, List.append_nil, List.length_map]
    exact length_filter_ne self.neighbours (sender_of fr) hnd hs
  · simp only [HandleOutput.sends, HandleOutput.reports, List.filterMap_append,
      flatMap_broadcast_filter, filterMap_sent_broadcast,
      filterMap_reported_broadcast, List.filterMap_cons, List.filterMap_nil,
      List.append_nil, List.map_map]
    have hfn : (Prod.snd ∘ fun id : NodeId =>
        (id, Packet.new_flood_request rh sid
          (fr.increment self.id self.node_type)))
        = fun _ => Packet.new_flood_request rh sid
            (fr.increment self.id self.node_type) := rfl
    rw [hfn]
  · simp only [HandleOutput.recordedIds, List.filterMap_append,
      flatMap_broadcast_filter, filterMap_recorded_broadcast,
      List.filterMap_cons, List.filterMap_nil]
    simp

/-- C3 witness: node 2 with neighbours 1 and 3 and a cold cache, receiving a
flood forwarded by node 1, broadcasts exactly one copy (to node 3), reports
it, records `(1, 7)` once, and succeeds. -/
theorem flooder_propagation_fanout_witness :
    (handle_flood_request ⟨2, .Drone, [1, 3], fun _ => false⟩ ⟨[], 0⟩ 9
        ⟨7, 1, [(1, .Client)]⟩).sends.length = 1
    ∧ (handle_flood_request ⟨2, .Drone, [1, 3], fun _ => false⟩ ⟨[], 0⟩ 9
        ⟨7, 1, [(1, .Client)]⟩).recordedIds = [(1, 7)]
    ∧ (handle_flood_request ⟨2, .Drone, [1, 3], fun _ => false⟩ ⟨[], 0⟩ 9
        ⟨7, 1, [(1, .Client)]⟩).result = .ok :=
  ⟨(flooder_propagation_fanout ⟨2, .Drone, [1, 3], fun _ => false⟩ ⟨[], 0⟩ 9
      ⟨7, 1, [(1, .Client)]⟩ (by decide) (by decide) (by decide) (by decide)).2.2.1,
   (flooder_propagation_fanout ⟨2, .Drone, [1, 3], fun _ => false⟩ ⟨[], 0⟩ 9
      ⟨7, 1, [(1, .Client)]⟩ (by decide) (by decide) (by decide) (by decide)).2.2.2.2.1,
   (flooder_propagation_fanout ⟨2, .Drone, [1, 3], fun _ => false⟩ ⟨[], 0⟩ 9
      ⟨7, 1, [(1, .Client)]⟩ (by decide) (by decide) (by decide) (by decide)).2.2.2.2.2⟩

/-- C5: on the terminate branch, when the advanced routing header's current
hop resolves to a node with no channel in the neighbour table, the call
returns the `FloodingError` (`NoRouteAvailable`) failure, sends no packet
and makes no monitoring report. -/
theorem flooder_no_route_available (self : Node) (rh : SourceRoutingHeader)
    (sid : Nat) (fr : FloodRequest) (nh : NodeId)
    (hterm : self.has_seen_flood (fr.initiator_id, fr.flood_id) = true
      ∨ self.neighbours.length ≤ 1)
    (hch : ((fr.increment self.id self.node_type).generate_response
        sid).increase_hop_index.routing_header.current_hop = some nh)
    (hnot : nh ∉ self.neighbours) :
    (handle_flood_request self rh sid fr).result = .errFlooding
    ∧ (handle_flood_request self rh sid fr).events = []
    ∧ (handle_flood_request self rh sid fr).sends = []
    ∧ (handle_flood_request self rh sid fr).reports = [] := by
  have hcond : (self.has_seen_flood (fr.initiator_id, fr.flood_id)
      || decide (self.neighbours.length ≤ 1)) = true := by
    rcases hterm with h | h <;> simp [h]
  have hfind : self.neighbours.find? (fun id => id == nh) = none := by
    rw [List.find?_eq_none]
    intro x hx
    simp only [beq_iff_eq]
    rintro rfl
    exact hnot hx
  rw [handle_terminate_no_route self rh sid fr nh hcond hch hfind]
  exact ⟨rfl, rfl, rfl, rfl⟩

/-- C5 witness: a node that has seen the flood, whose advanced response
header names node 3 while its only neighbour is node 9, fails with
`FloodingError` and emits nothing. -/
theorem flooder_no_route_available_witness :
    (handle_flood_request ⟨5, .Drone, [9], fun _ => true⟩ ⟨[], 0⟩ 0
        ⟨7, 1, [(3, .Drone)]⟩).result = .errFlooding
    ∧ (handle_flood_request ⟨5, .Drone, [9], fun _ => true⟩ ⟨[], 0⟩ 0
        ⟨7, 1, [(3, .Drone)]⟩).events = [] :=
  ⟨(flooder_no_route_available ⟨5, .Drone, [9], fun _ => true⟩ ⟨[], 0⟩ 0
      ⟨7, 1, [(3, .Drone)]⟩ 3 (Or.inl (by decide)) (by decide) (by decide)).1,
   (flooder_no_route_available ⟨5, .Drone, [9], fun _ => true⟩ ⟨[], 0⟩ 0
      ⟨7, 1, [(3, .Drone)]⟩ 3 (Or.inl (by decide)) (by decide) (by decide)).2.1⟩

/-- C8: on the terminate branch, when advancing the response header yields no
resolvable current hop, the handler panics (the `expect`) rather than
returning the recoverable `FloodingError`; and whenever the inbound flood
message is well-formed — its path trace nonempty, as it is for every flood
that has transited at least one node — that panic is unreachable. -/
theorem flooder_header_panic (self : Node) (rh : SourceRoutingHeader)
    (sid : Nat) (fr : FloodRequest) :
    ((self.has_seen_flood (fr.initiator_id, fr.flood_id) = true
        ∨ self.neighbours.length ≤ 1) →
      ((fr.increment self.id self.node_type).generate_response
          sid).increase_hop_index.routing_header.current_hop = none →
      (handle_flood_request self rh sid fr).result = HandlerResult.panicked
      ∧ (handle_flood_request self rh sid fr).result ≠ HandlerResult.errFlooding
      ∧ (handle_flood_request self rh sid fr).events = [])
    ∧ (fr.path_trace ≠ [] →
        (handle_flood_request self rh sid fr).result ≠ HandlerResult.panicked) := by
  constructor
  · intro hterm hch
    have hcond : (self.has_seen_flood (fr.initiator_id, fr.flood_id)
        || decide (self.neighbours.length ≤ 1)) = true := by
      rcases hterm with h | h <;> simp [h]
    rw [handle_terminate_panic self rh sid fr hcond hch]
    exact ⟨rfl, by simp, rfl⟩
  · intro hne
    by_cases hcond : (self.has_seen_flood (fr.initiator_id, fr.flood_id)
        || decide (self.neighbours.length ≤ 1)) = true
    · have hlen2 : ((fr.increment self.id self.node_type).generate_response
          sid).increase_hop_index.routing_header.hops.length
          = fr.path_trace.length + 1 := by
        simp [FloodRequest.generate_response, FloodRequest.increment,
          Packet.increase_hop_index, SourceRoutingHeader.increase_hop_index]
      have hne' : 1 ≤ fr.path_trace.length := by
        cases hpt : fr.path_trace with
        | nil => exact absurd hpt hne
        | cons a t => simp only [List.length_cons]; omega
      obtain ⟨nh, hch⟩ : ∃ nh, ((fr.increment self.id self.node_type).generate_response
          sid).increase_hop_index.routing_header.current_hop = some nh := by
        cases hc : ((fr.increment self.id self.node_type).generate_response
            sid).increase_hop_index.routing_header.current_hop with
        | some nh => exact ⟨nh, rfl⟩
        | none =>
          exfalso
          rw [SourceRoutingHeader.current_hop, List.get?_eq_none] at hc
          have hidx : ((fr.increment self.id self.node_type).generate_response
              sid).increase_hop_index.routing_header.hop_index = 1 := rfl
          omega
      cases hfind : self.neighbours.find? (fun id => id == nh) with
      | some ch =>
        rw [handle_terminate_found self rh sid fr nh ch hcond hch hfind]
        simp
      | none =>
        rw [handle_terminate_no_route self rh sid fr nh hcond hch hfind]
        simp
    · rw [handle_propagate self rh sid fr (by simpa using hcond)]
      simp

/-- C8 witness: a leaf node receiving a flood whose trace is still empty
builds a one-hop response header; advancing it leaves no current hop and the
handler panics. -/
theorem flooder_header_panic_witness :
    (handle_flood_request ⟨5, .Drone, [9], fun _ => false⟩ ⟨[], 0⟩ 0
        ⟨7, 1, []⟩).result = HandlerResult.panicked :=
  ((flooder_header_panic ⟨5, .Drone, [9], fun _ => false⟩ ⟨[], 0⟩ 0
      ⟨7, 1, []⟩).1 (Or.inr (by decide)) (by decide)).1

/-- C9: when the call fails with `FloodingError`, nothing was recorded into
the history cache (indeed no event happened at all), yet the inbound flood
message is not restored: its path trace keeps this node's appended entry, so
the error case is not atomic with respect to the flood message. -/
theorem flooder_error_not_atomic (self : Node) (rh : SourceRoutingHeader)
    (sid : Nat) (fr : FloodRequest)
    (herr : (handle_flood_request self rh sid fr).result
      = HandlerResult.errFlooding) :
    (handle_flood_request self rh sid fr).recordedIds = []
    ∧ (handle_flood_request self rh sid fr).events = []
    ∧ (handle_flood_request self rh sid fr).flood_r.path_trace
        = fr.path_trace ++ [(self.id, self.node_type)] := by
  have hfl : (handle_flood_request self rh sid fr).flood_r.path_trace
      = fr.path_trace ++ [(self.id, self.node_type)] := by
    rw [handle_flood_request_flood_r]
    rfl
  have hev : (handle_flood_request self rh sid fr).events = [] := by
    by_cases hcond : (self.has_seen_flood (fr.initiator_id, fr.flood_id)
        || decide (self.neighbours.length ≤ 1)) = true
    · cases hch : ((fr.increment self.id self.node_type).generate_response
          sid).increase_hop_index.routing_header.current_hop with
      | none =>
        rw [handle_terminate_panic self rh sid fr hcond hch] at herr
        exact absurd herr (by simp)
      | some nh =>
        cases hfind : self.neighbours.find? (fun id => id == nh) with
        | none =>
          rw [handle_terminate_no_route self rh sid fr nh hcond hch hfind]
        | some ch =>
          rw [handle_terminate_found self rh sid fr nh ch hcond hch hfind] at herr
          exact absurd herr (by simp)
    · rw [handle_propagate self rh sid fr (by simpa using hcond)] at herr
      exact absurd herr (by simp)
  exact ⟨by simp [HandleOutput.recordedIds, hev], hev, hfl⟩

/-- C9 witness: a failed (no-route) call records nothing but leaves the trace
extended with the node's own entry. -/
theorem flooder_error_not_atomic_witness :
    (handle_flood_request ⟨6, .Server, [2], fun _ => true⟩ ⟨[], 0⟩ 4
        ⟨8, 1, [(4, .Drone)]⟩).recordedIds = []
    ∧ (handle_flood_request ⟨6, .Server, [2], fun _ => true⟩ ⟨[], 0⟩ 4
        ⟨8, 1, [(4, .Drone)]⟩).flood_r.path_trace
      = [(4, .Drone), (6, .Server)] :=
  ⟨(flooder_error_not_atomic ⟨6, .Server, [2], fun _ => true⟩ ⟨[], 0⟩ 4
      ⟨8, 1, [(4, .Drone)]⟩ (by decide)).1,
   (flooder_error_not_atomic ⟨6, .Server, [2], fun _ => true⟩ ⟨[], 0⟩ 4
      ⟨8, 1, [(4, .Drone)]⟩ (by decide)).2.2⟩

/-- C4 witness: at a node with two neighbours the trace grows by exactly the
node's own entry. -/
theorem flooder_trace_growth_witness :
    (handle_flood_request ⟨2, .Drone, [1, 3], fun _ => false⟩ ⟨[], 0⟩ 9
        ⟨7, 1, [(1, .Client)]⟩).flood_r.path_trace
      = [(1, .Client), (2, .Drone)] :=
  (flooder_trace_growth ⟨2, .Drone, [1, 3], fun _ => false⟩ ⟨[], 0⟩ 9
    ⟨7, 1, [(1, .Client)]⟩).1
